import Mathlib

/-!
Verification of the cache/concurrency engine of react-native-image-cache-hoc.

The development shallowly embeds the `FileSystem` class of `src/FileSystem.ts`:

* `getFileNameFromUrl` (identity naming, sha1 + extension),
* the static lock table `cacheLock` and stream registry `cacheObservables`
  together with `lockCacheFile` / `unlockCacheFile` / `observable`,
* `fetchFile` (the download pipeline, as a function of the I/O outcomes),
* `pruneCache` (the eviction sweep, as a function of the directory listing).

External dependencies of the source (crypto-js sha1, url-parse, Node's
path.basename, react-native-fs) are pure helpers here: sha1 is implemented
in full, url-parse's `pathname` field and `path.basename` are modelled for
the URL/path shapes the library handles, and the asynchronous I/O results
(stat outcomes, download status codes, rejections) are explicit parameters.
-/

/-! ## SHA-1 (model of the crypto-js `sha1(url).toString()` dependency) -/

/-- Left rotation of a 32-bit word represented as a `Nat` below `2 ^ 32`. -/
def rotl32 (n x : Nat) : Nat :=
  ((x <<< n) ||| (x >>> (32 - n))) % 4294967296

/-- UTF-8 encoding of a unicode scalar value, as the list of its bytes. -/
def utf8Bytes (c : Nat) : List Nat :=
  if c < 128 then [c]
  else if c < 2048 then [192 + c / 64, 128 + c % 64]
  else if c < 65536 then [224 + c / 4096, 128 + (c / 64) % 64, 128 + c % 64]
  else [240 + c / 262144, 128 + (c / 4096) % 64, 128 + (c / 64) % 64, 128 + c % 64]

/-- UTF-8 encoding of a string (crypto-js parses string input as UTF-8). -/
def utf8Encode (s : String) : List Nat :=
  (s.data.map (fun ch => utf8Bytes ch.toNat)).flatten

/-- SHA-1 padding: append `0x80`, zeros, then the 64-bit big-endian bit length. -/
def sha1Pad (msg : List Nat) : List Nat :=
  let len := msg.length
  let zeros := (120 - ((len + 1) % 64)) % 64
  let bitLen := len * 8
  msg ++ [128] ++ List.replicate zeros 0 ++
    [(bitLen >>> 56) % 256, (bitLen >>> 48) % 256, (bitLen >>> 40) % 256,
     (bitLen >>> 32) % 256, (bitLen >>> 24) % 256, (bitLen >>> 16) % 256,
     (bitLen >>> 8) % 256, bitLen % 256]

/-- Split a byte list into 64-byte blocks; the fuel argument (instantiated with
the list length) keeps the recursion structural. -/
def chunkBlocks : Nat → List Nat → List (List Nat)
  | 0, _ => []
  | _, [] => []
  | fuel + 1, l => l.take 64 :: chunkBlocks fuel (l.drop 64)

/-- Pack big-endian groups of four bytes into 32-bit words. -/
def bytesToWords : List Nat → List Nat
  | a :: b :: c :: d :: rest =>
    (a * 16777216 + b * 65536 + c * 256 + d) :: bytesToWords rest
  | _ => []

/-- One step of the SHA-1 message-schedule extension. -/
def sha1ExtendStep (ws : List Nat) : List Nat :=
  let n := ws.length
  ws ++ [rotl32 1 ((ws.getD (n - 3) 0) ^^^ (ws.getD (n - 8) 0) ^^^
                   (ws.getD (n - 14) 0) ^^^ (ws.getD (n - 16) 0))]

/-- Iterate the message-schedule extension. -/
def sha1Extend : Nat → List Nat → List Nat
  | 0, ws => ws
  | n + 1, ws => sha1Extend n (sha1ExtendStep ws)

/-- The SHA-1 round function. -/
def sha1F (i b c d : Nat) : Nat :=
  if i < 20 then (b &&& c) ||| ((b ^^^ 4294967295) &&& d)
  else if i < 40 then b ^^^ c ^^^ d
  else if i < 60 then (b &&& c) ||| (b &&& d) ||| (c &&& d)
  else b ^^^ c ^^^ d

/-- The SHA-1 round constants. -/
def sha1K (i : Nat) : Nat :=
  if i < 20 then 0x5A827999
  else if i < 40 then 0x6ED9EBA1
  else if i < 60 then 0x8F1BBCDC
  else 0xCA62C1D6

/-- One SHA-1 compression round on the five-word state. -/
def sha1Round (st : Nat × Nat × Nat × Nat × Nat) (iw : Nat × Nat) :
    Nat × Nat × Nat × Nat × Nat :=
  let (a, b, c, d, e) := st
  let (i, w) := iw
  let temp := (rotl32 5 a + sha1F i b c d + e + sha1K i + w) % 4294967296
  (temp, a, rotl32 30 b, c, d)

/-- Process one 64-byte block. -/
def sha1Block (h : Nat × Nat × Nat × Nat × Nat) (block : List Nat) :
    Nat × Nat × Nat × Nat × Nat :=
  let ws := sha1Extend 64 (bytesToWords block)
  let (a, b, c, d, e) := ws.enum.foldl sha1Round h
  let (h0, h1, h2, h3, h4) := h
  ((h0 + a) % 4294967296, (h1 + b) % 4294967296, (h2 + c) % 4294967296,
   (h3 + d) % 4294967296, (h4 + e) % 4294967296)

/-- The five 32-bit words of the SHA-1 digest of a string. -/
def sha1Words (s : String) : List Nat :=
  let padded := sha1Pad (utf8Encode s)
  let final := (chunkBlocks padded.length padded).foldl sha1Block
    (0x67452301, 0xEFCDAB89, 0x98BADCFE, 0x10325476, 0xC3D2E1F0)
  [final.1, final.2.1, final.2.2.1, final.2.2.2.1, final.2.2.2.2]

/-- A lowercase hexadecimal digit. -/
def hexDigitChar (n : Nat) : Char :=
  if n < 10 then Char.ofNat (48 + n) else Char.ofNat (87 + n)

/-- Fixed-width lowercase hexadecimal rendering of a number. -/
def hexChars : Nat → Nat → List Char
  | 0, _ => []
  | d + 1, w => hexChars d (w / 16) ++ [hexDigitChar (w % 16)]

/-- Lowercase hex SHA-1 digest of a string: the `sha1(url).toString()` call. -/
def sha1Hex (s : String) : String :=
  String.mk ((sha1Words s).map (fun w => hexChars 8 w)).flatten

/-! ## Identity naming: `FileSystem.getFileNameFromUrl` -/

/-- Split a character list at every occurrence of a separator, exactly like
the JavaScript `String.prototype.split` on a one-character separator: the
result is always non-empty, and an empty input yields `[[]]`. -/
def splitChar (sep : Char) : List Char → List (List Char)
  | [] => [[]]
  | c :: cs =>
    match splitChar sep cs with
    | [] => [[]]
    | g :: gs => if c = sep then [] :: g :: gs else (c :: g) :: gs

/-- The characters after the first `://`, if any (model of url-parse
skipping the scheme separator of an absolute URL). -/
def findSchemeRest : List Char → Option (List Char)
  | ':' :: '/' :: '/' :: rest => some rest
  | _ :: cs => findSchemeRest cs
  | [] => none

/-- Model of the url-parse dependency's `pathname` field for the absolute
URLs this library accepts: the characters from the first `/` after the
authority up to (excluding) any `?` or `#`; empty when the URL has no path. -/
def pathnameChars (url : String) : List Char :=
  (((findSchemeRest url.data).getD url.data).dropWhile (fun c => c != '/')).takeWhile
    (fun c => c != '?' && c != '#')

/-- `FileSystem.getFileNameFromUrl` (src/FileSystem.ts lines 533-541):
`urlExt = urlParts.pathname.split('.').pop()`, extension falls back to
`'bin'` when `urlExt === urlParts.pathname`, and the result is
`sha1(url).toString() + '.' + extension`. -/
def getFileNameFromUrl (url : String) : String :=
  let pathname := pathnameChars url
  let urlExt := (splitChar '.' pathname).getLastD []
  let extension := if urlExt = pathname then ['b', 'i', 'n'] else urlExt
  sha1Hex url ++ "." ++ String.mk extension

/-! ## Lock table, stream registry and `FileSystem.observable`

`FileSystem.cacheLock` is a process-wide dictionary from cache filename to a
dictionary of component ids, and `FileSystem.cacheObservables` maps a cache
filename to the live `ReplaySubject` for that filename.  Both are embedded
as partial maps.  A `ReplaySubject` is represented by a `StreamObj`: the
`id` field stands for the object's identity (reference equality of two
subjects is equality of their ids, since `nextId` increases at every
creation), and the `strategy` field records the `cacheStrategy` argument the
creating call closed over when it built the subject's production pipeline
(src/FileSystem.ts lines 804-834). -/

/-- The payload type emitted by the resolution streams (`CacheFileInfo` in
src/FileSystem.ts); `path = none` embeds the JavaScript `null` path. -/
structure CacheFileInfo where
  path : Option String
  fileName : String
  deriving Repr, DecidableEq

/-- The two valid cache strategies of the `CacheStrategy` union type. -/
inductive Strategy where
  | immutable
  | mutable
  deriving Repr, DecidableEq

/-- Runtime classification of the `cacheStrategy` string argument: the check
`cacheStrategy !== 'immutable' && cacheStrategy !== 'mutable'` at
src/FileSystem.ts line 789. -/
def parseStrategy (s : String) : Option Strategy :=
  if s = "immutable" then some Strategy.immutable
  else if s = "mutable" then some Strategy.mutable
  else none

/-- A live `ReplaySubject` in the registry (see the section comment). -/
structure StreamObj where
  id : Nat
  strategy : Strategy
  deriving Repr, DecidableEq

/-- The process-wide static state of the `FileSystem` class: the lock table
`cacheLock`, the stream registry `cacheObservables`, and the identity
counter used to mint fresh `StreamObj` ids. -/
structure CacheState where
  cacheLock : String → Option (List String)
  cacheObservables : String → Option StreamObj
  nextId : Nat

/-- Adding a key to the inner component dictionary: `dict[componentId] =
true` is idempotent. -/
def insertComponent (comps : List String) (componentId : String) : List String :=
  if componentId ∈ comps then comps else componentId :: comps

/-- `FileSystem.lockCacheFile` (src/FileSystem.ts lines 433-442): add the
component lock, creating the filename's entry when absent. -/
def lockCacheFile (fileName componentId : String) (st : CacheState) : CacheState :=
  match st.cacheLock fileName with
  | some comps =>
    { st with cacheLock := fun f =>
        if f = fileName then some (insertComponent comps componentId) else st.cacheLock f }
  | none =>
    { st with cacheLock := fun f =>
        if f = fileName then some [componentId] else st.cacheLock f }

/-- `FileSystem.unlockCacheFile` (src/FileSystem.ts lines 444-458): delete
the component lock; when no locks remain, delete the filename's lock entry
and any registered stream for the filename. -/
def unlockCacheFile (fileName componentId : String) (st : CacheState) : CacheState :=
  match st.cacheLock fileName with
  | none => st
  | some comps =>
    let comps' := comps.filter (fun c => c ≠ componentId)
    if comps' = [] then
      { st with
        cacheLock := fun f => if f = fileName then none else st.cacheLock f,
        cacheObservables := fun f => if f = fileName then none else st.cacheObservables f }
    else
      { st with cacheLock := fun f =>
          if f = fileName then some comps' else st.cacheLock f }

/-- The lock-state gate consulted by `observable` and `pruneCache`: the
truthiness of `FileSystem.cacheLock[fileName]` (the spec's `isLocked`). -/
def isLocked (fileName : String) (st : CacheState) : Bool :=
  (st.cacheLock fileName).isSome

/-- The value returned by `FileSystem.observable`: either the unregistered
single-emission `of({path: null, fileName: ''})` short-circuit for an empty
url, or a (possibly freshly registered) shared `ReplaySubject`. -/
inductive ObsOutcome where
  | single (info : CacheFileInfo)
  | shared (subj : StreamObj)
  deriving Repr, DecidableEq

/-- `FileSystem.observable` (src/FileSystem.ts lines 775-843).  `valid`
abstracts `this._validatePath` (which either returns `true` or throws a
"not a valid file path" error); thrown errors are embedded as `Except.error`
with the source's message.  Checks appear in source order: empty-url
short-circuit, strategy validation, filename derivation, lock precondition,
then registry lookup; a miss registers a fresh subject built with the
caller's strategy and increments the identity counter. -/
def observable (valid : String → Bool) (st : CacheState)
    (url componentId cacheStrategy : String) (fileName? : Option String) :
    Except String (ObsOutcome × CacheState) :=
  if url = "" then
    Except.ok (ObsOutcome.single { path := none, fileName := "" }, st)
  else
    match parseStrategy cacheStrategy with
    | none => Except.error ("Invalid CacheStrategy " ++ cacheStrategy ++ " is unhandled")
    | some strat =>
      let fileName := fileName?.getD (getFileNameFromUrl url)
      match st.cacheLock fileName with
      | none => Except.error "A lock must be aquired before requesting an observable"
      | some comps =>
        if componentId ∈ comps then
          match st.cacheObservables fileName with
          | some subj => Except.ok (ObsOutcome.shared subj, st)
          | none =>
            if valid fileName then
              let subj : StreamObj := { id := st.nextId, strategy := strat }
              Except.ok (ObsOutcome.shared subj,
                { st with
                  cacheObservables := fun f =>
                    if f = fileName then some subj else st.cacheObservables f,
                  nextId := st.nextId + 1 })
            else Except.error (fileName ++ " is not a valid file path.")
        else Except.error "A lock must be aquired before requesting an observable"

/-! ## `FileSystem.fetchFile`: the download pipeline

`fetchFile` (src/FileSystem.ts lines 639-686) is an rxjs pipeline over
asynchronous I/O.  It is embedded as a pure function of an explicit record
of I/O outcomes (`FetchEnv`): whether `this.exists('')` reported the cache
directory present, what `RNFS.stat(path)` produced (already folded through
its own `catchError(() => of(null))`), and how the `RNFS.downloadFile`
promise settled.  The function returns the observable's behaviour: the list
of values it emits, whether the trailing `catchError` ran
`RNFSUnlinkIfExists(path)`, whether `pruneCache()` respectively
`RNFS.mkdir` ran in the `delayWhen` step, and the download request that was
issued. -/

/-- Model of Node's `path.basename`: the part after the last slash. -/
def basename (path : String) : String :=
  String.mk ((splitChar '/' path.data).getLastD [])

/-- How the `RNFS.downloadFile(...).promise` settled: a status code, or a
rejection (any I/O or network exception anywhere in the pipeline). -/
inductive DownloadOutcome where
  | status (code : Nat)
  | ioError
  deriving Repr, DecidableEq

/-- The result of `RNFS.stat` on the target path; only the modification
time is consumed (by the if-modified-since header derivation). -/
structure StatInfo where
  mtime : Int
  deriving Repr, DecidableEq

/-- The I/O outcomes a run of `fetchFile` observes. -/
structure FetchEnv where
  cacheDirExists : Bool
  statResult : Option StatInfo
  download : DownloadOutcome
  deriving Repr, DecidableEq

/-- The arguments of the one `RNFS.downloadFile` invocation of a fetch. -/
structure DownloadCall where
  fromUrl : String
  toFile : String
  ifModifiedSince : Option String
  deriving Repr, DecidableEq

/-- The observable behaviour of one run of `fetchFile`. -/
structure FetchResult where
  emissions : List CacheFileInfo
  deletedPartial : Bool
  pruneRan : Bool
  mkdirRan : Bool
  downloadCall : DownloadCall
  deriving Repr, DecidableEq

/-- `FileSystem.fetchFile` (src/FileSystem.ts lines 639-686).  `valid`
abstracts `this._validatePath(path, true)` (returns `true` or throws).
After the `delayWhen` prune-or-mkdir step and the download, the
`filter`/`map` pair keeps a result only when `stat === null ||
downloadResult.statusCode === 200`, the `map` throws "Request failed" when
`stat === null` and the status is not 200, and the trailing `catchError`
deletes any partial file and emits `{path: null, fileName:
basename(path)}`. -/
def fetchFile (valid : String → Bool) (baseFilePath url : String)
    (fileName? : Option String) (headers : Option String) (env : FetchEnv) :
    Except String FetchResult :=
  let fileName := fileName?.getD (getFileNameFromUrl url)
  let path := baseFilePath ++ fileName
  if valid path then
    let call : DownloadCall := { fromUrl := url, toFile := path, ifModifiedSince := headers }
    let base : FetchResult :=
      { emissions := [], deletedPartial := false, pruneRan := env.cacheDirExists,
        mkdirRan := !env.cacheDirExists, downloadCall := call }
    match env.download with
    | DownloadOutcome.ioError =>
      Except.ok { base with
        emissions := [{ path := none, fileName := basename path }], deletedPartial := true }
    | DownloadOutcome.status code =>
      match env.statResult with
      | some _ =>
        if code = 200 then
          Except.ok { base with
            emissions := [{ path := some ("file://" ++ path), fileName := basename path }] }
        else Except.ok base
      | none =>
        if code = 200 then
          Except.ok { base with
            emissions := [{ path := some ("file://" ++ path), fileName := basename path }] }
        else
          Except.ok { base with
            emissions := [{ path := none, fileName := basename path }], deletedPartial := true }
  else Except.error (path ++ " is not a valid file path.")

/-! ## The production pipeline of a fresh resolution stream

When `observable` registers a fresh subject it builds the pipeline at
src/FileSystem.ts lines 804-834: stat the cache file (folded through
`catchError` into an `Option`), then `switchMap` on the outcome.  `utc`
abstracts `new Date(mtime).toUTCString()`.  The result is the emission list
of the stream together with the `RNFS.downloadFile` calls it causes. -/

/-- The production logic a fresh stream runs, as a function of the stat
outcome for the cache file, the strategy the creating caller passed, and the
I/O outcomes of the inner `fetchFile` run (if one happens). -/
def observableProduction (valid : String → Bool) (utc : Int → String)
    (baseFilePath url fileName : String) (strategy : Strategy)
    (outerStat : Option StatInfo) (env : FetchEnv) :
    Except String (List CacheFileInfo × List DownloadCall) :=
  match outerStat with
  | some stat =>
    match strategy with
    | Strategy.immutable =>
      Except.ok ([{ path := some ("file://" ++ baseFilePath ++ fileName), fileName }], [])
    | Strategy.mutable =>
      match fetchFile valid baseFilePath url (some fileName) (some (utc stat.mtime)) env with
      | Except.ok fr =>
        Except.ok ({ path := some ("file://" ++ baseFilePath ++ fileName), fileName := fileName }
            :: fr.emissions, [fr.downloadCall])
      | Except.error e => Except.error e
  | none =>
    match fetchFile valid baseFilePath url (some fileName) none env with
    | Except.ok fr => Except.ok (fr.emissions, [fr.downloadCall])
    | Except.error e => Except.error e

/-! ## `FileSystem.pruneCache`: the eviction sweep

`pruneCache` (src/FileSystem.ts lines 695-737) reads the cache directory,
sorts the entries oldest-first by modification time, and while the overflow
over `cachePruneTriggerLimit` is positive shifts entries off the sorted
list, unlinking each entry that is not locked and passes `_validatePath`
and subtracting its size from the overflow.  The embedding is a function of
the directory listing (`RNFS.readDir` outcome) and the lock table, and
returns the list of entries handed to `RNFSUnlinkIfExists`, in order. -/

/-- One entry of the `RNFS.readDir` listing: name, size and mtime. -/
structure DirEntry where
  name : String
  size : Nat
  mtime : Int
  deriving Repr, DecidableEq

/-- The mtime comparison the sort uses: `(a.mtime ?? 0) - (b.mtime ?? 0)`
ascending (entries here always carry an mtime). -/
def mtimeLE (a b : DirEntry) : Prop := a.mtime ≤ b.mtime

instance : DecidableRel mtimeLE := fun a b => Int.decLe a.mtime b.mtime

/-- The oldest-first sort of the directory contents. -/
def sortByMtime (l : List DirEntry) : List DirEntry :=
  List.insertionSort mtimeLE l

/-- Total size of a directory listing: the `reduce` that sums
`parseInt(blobStatObject.size)` over the (sorted) contents. -/
def cacheSize (l : List DirEntry) : Nat :=
  (l.map (fun e => e.size)).sum

/-- Signed size sum of a list of entries, for overflow arithmetic. -/
def sizeSum (l : List DirEntry) : Int :=
  (l.map (fun e => (e.size : Int))).sum

/-- The `while (overflowSize > 0 && dirContents.length)` loop of
`pruneCache`: shift the oldest entry; when it is unlocked
(`!FileSystem.cacheLock[contentFile.name]`) and `_validatePath` accepts its
name (`valid`), subtract its size from the overflow and record the unlink;
locked or rejected entries are skipped without reducing the overflow. -/
def pruneLoop (lock : String → Option (List String)) (valid : String → Bool) :
    Int → List DirEntry → List DirEntry
  | _, [] => []
  | o, e :: rest =>
    if o ≤ 0 then []
    else if (lock e.name).isNone && valid e.name then
      e :: pruneLoop lock valid (o - (e.size : Int)) rest
    else
      pruneLoop lock valid o rest

/-- `FileSystem.pruneCache` (src/FileSystem.ts lines 695-737): nothing is
deleted when the cache directory does not exist or the total size is within
`cachePruneTriggerLimit`; otherwise the loop runs on the sorted listing
with the initial overflow.  The result is the list of unlinked entries. -/
def pruneCache (lock : String → Option (List String)) (valid : String → Bool)
    (cachePruneTriggerLimit : Nat) (dirExists : Bool) (dirContents : List DirEntry) :
    List DirEntry :=
  if !dirExists then []
  else
    let sorted := sortByMtime dirContents
    let currentCacheSize := cacheSize sorted
    if currentCacheSize > cachePruneTriggerLimit then
      pruneLoop lock valid ((currentCacheSize : Int) - (cachePruneTriggerLimit : Int)) sorted
    else []

/-! ## Lemmas about the eviction loop -/

/-- Whatever `pruneLoop` deletes is an in-order selection of the unlocked,
path-valid entries of the processed list. -/
lemma pruneLoop_sublist (lock : String → Option (List String)) (valid : String → Bool)
    (o : Int) (l : List DirEntry) :
    (pruneLoop lock valid o l).Sublist
      (l.filter (fun e => (lock e.name).isNone && valid e.name)) := by
  induction l generalizing o with
  | nil => simp [pruneLoop]
  | cons e rest ih =>
    simp only [pruneLoop]
    split_ifs with ho hp
    · exact List.nil_sublist _
    · rw [List.filter_cons, if_pos hp]
      exact (ih _).cons₂ e
    · rw [List.filter_cons, if_neg hp]
      exact ih o

/-- `pruneLoop` stops only once the deleted sizes cover the overflow or the
list is exhausted (in which case every unlocked valid entry was deleted). -/
lemma pruneLoop_stop (lock : String → Option (List String)) (valid : String → Bool)
    (o : Int) (l : List DirEntry) :
    o ≤ sizeSum (pruneLoop lock valid o l) ∨
      pruneLoop lock valid o l =
        l.filter (fun e => (lock e.name).isNone && valid e.name) := by
  induction l generalizing o with
  | nil => right; simp [pruneLoop]
  | cons e rest ih =>
    simp only [pruneLoop]
    split_ifs with ho hp
    · left
      simpa [sizeSum] using ho
    · rcases ih (o - (e.size : Int)) with h | h
      · left
        simp only [sizeSum, List.map_cons, List.sum_cons]
        simp only [sizeSum] at h
        omega
      · right
        rw [h, List.filter_cons, if_pos hp]
    · rcases ih o with h | h
      · left; exact h
      · right
        rw [h, List.filter_cons, if_neg hp]

/-- Every deletion of `pruneLoop` happens while the overflow is still
positive: the sizes of any strict initial segment of the deletions sum to
less than the initial overflow. -/
lemma pruneLoop_take (lock : String → Option (List String)) (valid : String → Bool)
    (o : Int) (l : List DirEntry) :
    ∀ k, k < (pruneLoop lock valid o l).length →
      sizeSum ((pruneLoop lock valid o l).take k) < o := by
  induction l generalizing o with
  | nil => intro k hk; simp [pruneLoop] at hk
  | cons e rest ih =>
    intro k hk
    simp only [pruneLoop] at hk ⊢
    split_ifs at hk ⊢ with ho hp
    · simp at hk
    · cases k with
      | zero =>
        simp only [List.take_zero, sizeSum, List.map_nil, List.sum_nil]
        omega
      | succ k =>
        simp only [List.length_cons, Nat.succ_lt_succ_iff] at hk
        have h := ih (o - (e.size : Int)) k hk
        simp only [List.take_succ_cons, sizeSum, List.map_cons, List.sum_cons]
        simp only [sizeSum] at h
        omega
    · exact ih o k hk

/-- Members of the deletion list are unlocked and path-valid. -/
lemma mem_pruneLoop_unlocked (lock : String → Option (List String)) (valid : String → Bool)
    (o : Int) (l : List DirEntry) (e : DirEntry)
    (he : e ∈ pruneLoop lock valid o l) :
    (lock e.name).isNone = true ∧ valid e.name = true := by
  have h := (pruneLoop_sublist lock valid o l).subset he
  simpa using (List.mem_filter.mp h).2

instance : IsTotal DirEntry mtimeLE := ⟨fun a b => Int.le_total a.mtime b.mtime⟩

instance : IsTrans DirEntry mtimeLE := ⟨fun _ _ _ hab hbc => le_trans hab hbc⟩

/-- C3: For every cache directory state and every lock-table state, the
eviction sweep (`pruneCache`) never deletes a file whose filename currently
has at least one lock held, regardless of the file's age, even when
skipping it leaves the post-sweep total size above the budget. -/
theorem pruneCache_never_deletes_locked (lock : String → Option (List String))
    (valid : String → Bool) (limit : Nat) (dirExists : Bool)
    (entries : List DirEntry) (name : String)
    (hlock : (lock name).isSome = true) :
    name ∉ (pruneCache lock valid limit dirExists entries).map (fun e => e.name) := by
  intro hmem
  rcases List.mem_map.mp hmem with ⟨e, he, hname⟩
  simp only [pruneCache] at he
  split at he
  · simp at he
  · split at he
    · have h := (mem_pruneLoop_unlocked _ _ _ _ _ he).1
      rw [hname, Option.isNone_iff_eq_none] at h
      rw [h] at hlock
      simp at hlock
    · simp at he

/-- C3 witness: a locked oldest file is skipped while a younger unlocked
file is deleted, leaving the cache above budget. -/
theorem pruneCache_never_deletes_locked_witness :
    "a.png" ∉ (pruneCache (fun n => if n = "a.png" then some ["c"] else none)
      (fun _ => true) 50 true
      [{ name := "a.png", size := 100, mtime := 0 },
       { name := "b.png", size := 10, mtime := 5 }]).map (fun e => e.name) :=
  pruneCache_never_deletes_locked _ _ _ _ _ _ (by decide)

/-- The greedy oldest-first deletion the spec demands of the sweep, stated
in the spec's words over an already-ordered list of deletable entries:
delete each entry in turn, subtracting its size from the overflow, and stop
as soon as the overflow is at or below zero or the entries run out. -/
def greedyTake : Int → List DirEntry → List DirEntry
  | _, [] => []
  | o, e :: rest => if o ≤ 0 then [] else e :: greedyTake (o - (e.size : Int)) rest

/-- A non-positive overflow deletes nothing. -/
lemma greedyTake_nonpos (o : Int) (l : List DirEntry) (ho : o ≤ 0) :
    greedyTake o l = [] := by
  cases l with
  | nil => rfl
  | cons e rest => simp [greedyTake, ho]

/-- The source's sweep loop — which walks the whole listing and skips
locked or path-invalid entries in place, without counting them — computes
exactly the greedy deletion over the unlocked valid entries of the list. -/
lemma pruneLoop_eq_greedyTake (lock : String → Option (List String))
    (valid : String → Bool) (o : Int) (l : List DirEntry) :
    pruneLoop lock valid o l =
      greedyTake o (l.filter (fun e => (lock e.name).isNone && valid e.name)) := by
  induction l generalizing o with
  | nil => simp [pruneLoop, greedyTake]
  | cons e rest ih =>
    simp only [pruneLoop]
    split_ifs with ho hp
    · rw [greedyTake_nonpos _ _ ho]
    · rw [List.filter_cons, if_pos hp]
      simp only [greedyTake, if_neg ho]
      exact congrArg (List.cons e) (ih _)
    · rw [List.filter_cons, if_neg hp]
      exact ih o

/-- C7: when the summed sizes of the cache directory exceed the budget, the
sweep sorts the entries ascending by modification time and then performs
exactly the greedy oldest-first deletion over the unlocked (and path-valid)
entries of that order: it deletes each such entry in turn, subtracting its
size from the overflow `total - budget` — locked entries are skipped
without being counted — and stops as soon as the overflow is at or below
zero or the entries are exhausted. -/
theorem pruneCache_sweep_spec (lock : String → Option (List String))
    (valid : String → Bool) (limit : Nat) (entries : List DirEntry)
    (h : limit < cacheSize (sortByMtime entries)) :
    List.Pairwise mtimeLE (sortByMtime entries) ∧
    pruneCache lock valid limit true entries =
      greedyTake ((cacheSize (sortByMtime entries) : Int) - (limit : Int))
        ((sortByMtime entries).filter (fun e => (lock e.name).isNone && valid e.name)) := by
  refine ⟨List.sorted_insertionSort mtimeLE entries, ?_⟩
  have heq : pruneCache lock valid limit true entries =
      pruneLoop lock valid
        ((cacheSize (sortByMtime entries) : Int) - (limit : Int)) (sortByMtime entries) := by
    simp [pruneCache, h]
  rw [heq, pruneLoop_eq_greedyTake]

/-- Concrete directory listing for the C7 witness: three files, over budget. -/
def sweepEntries : List DirEntry :=
  [{ name := "c.png", size := 40, mtime := 9 },
   { name := "a.png", size := 40, mtime := 1 },
   { name := "b.png", size := 40, mtime := 4 }]

/-- Concrete lock table for the C7 witness: only `b.png` is locked. -/
def sweepLock : String → Option (List String) :=
  fun n => if n = "b.png" then some ["k"] else none

/-- C7 witness: three files (the middle one by age locked) over budget; the
sweep coincides with the greedy oldest-first deletion over the unlocked
files, skipping the locked one. -/
theorem pruneCache_sweep_spec_witness :
    List.Pairwise mtimeLE (sortByMtime sweepEntries) ∧
    pruneCache sweepLock (fun _ => true) 50 true sweepEntries =
      greedyTake ((cacheSize (sortByMtime sweepEntries) : Int) - ((50 : Nat) : Int))
        ((sortByMtime sweepEntries).filter
          (fun e => (sweepLock e.name).isNone && (fun _ => true) e.name)) :=
  pruneCache_sweep_spec sweepLock (fun _ => true) 50 sweepEntries (by decide)

/-! ## Lock-table transitions -/

/-- C5: for a filename with no prior locks, locking two distinct consumer
ids and releasing one leaves the filename locked; releasing the second
removes the filename's lock entry and any registered stream for it, so the
locked state transitions true, true, false. -/
theorem lock_unlock_transitions (st : CacheState) (fileName c1 c2 : String)
    (hne : c1 ≠ c2) (h0 : st.cacheLock fileName = none) :
    isLocked fileName (lockCacheFile fileName c2 (lockCacheFile fileName c1 st)) = true ∧
    isLocked fileName (unlockCacheFile fileName c1
      (lockCacheFile fileName c2 (lockCacheFile fileName c1 st))) = true ∧
    isLocked fileName (unlockCacheFile fileName c2 (unlockCacheFile fileName c1
      (lockCacheFile fileName c2 (lockCacheFile fileName c1 st)))) = false ∧
    (unlockCacheFile fileName c2 (unlockCacheFile fileName c1
      (lockCacheFile fileName c2 (lockCacheFile fileName c1 st)))).cacheLock fileName = none ∧
    (unlockCacheFile fileName c2 (unlockCacheFile fileName c1
      (lockCacheFile fileName c2 (lockCacheFile fileName c1 st)))).cacheObservables fileName
      = none := by
  have hc2c1 : ¬ c2 = c1 := fun h => hne h.symm
  set st1 := lockCacheFile fileName c1 st with hst1
  set st2 := lockCacheFile fileName c2 st1 with hst2
  set st3 := unlockCacheFile fileName c1 st2 with hst3
  set st4 := unlockCacheFile fileName c2 st3 with hst4
  have h1 : st1.cacheLock fileName = some [c1] := by
    rw [hst1]; simp [lockCacheFile, h0]
  have h2 : st2.cacheLock fileName = some [c2, c1] := by
    rw [hst2]; simp [lockCacheFile, h1, insertComponent, hc2c1]
  have h3 : st3.cacheLock fileName = some [c2] := by
    rw [hst3]; simp [unlockCacheFile, h2, hc2c1, hne]
  have h3o : st3.cacheObservables fileName = st2.cacheObservables fileName := by
    rw [hst3]; simp [unlockCacheFile, h2, hc2c1, hne]
  have h4 : st4.cacheLock fileName = none := by
    rw [hst4]; simp [unlockCacheFile, h3]
  have h4o : st4.cacheObservables fileName = none := by
    rw [hst4]; simp [unlockCacheFile, h3]
  exact ⟨by simp [isLocked, h2], by simp [isLocked, h3], by simp [isLocked, h4], h4, h4o⟩

/-- C5 witness: the transition sequence on a concrete state that also has a
registered stream for the filename; the stream entry is gone at the end. -/
theorem lock_unlock_transitions_witness :
    isLocked "f.png" (lockCacheFile "f.png" "c2" (lockCacheFile "f.png" "c1"
      ⟨fun _ => none, fun f => if f = "f.png" then some ⟨0, Strategy.immutable⟩ else none, 1⟩))
      = true ∧
    isLocked "f.png" (unlockCacheFile "f.png" "c1" (lockCacheFile "f.png" "c2"
      (lockCacheFile "f.png" "c1"
      ⟨fun _ => none, fun f => if f = "f.png" then some ⟨0, Strategy.immutable⟩ else none, 1⟩)))
      = true ∧
    isLocked "f.png" (unlockCacheFile "f.png" "c2" (unlockCacheFile "f.png" "c1"
      (lockCacheFile "f.png" "c2" (lockCacheFile "f.png" "c1"
      ⟨fun _ => none, fun f => if f = "f.png" then some ⟨0, Strategy.immutable⟩ else none, 1⟩))))
      = false ∧
    (unlockCacheFile "f.png" "c2" (unlockCacheFile "f.png" "c1"
      (lockCacheFile "f.png" "c2" (lockCacheFile "f.png" "c1"
      ⟨fun _ => none, fun f => if f = "f.png" then some ⟨0, Strategy.immutable⟩ else none, 1⟩)))).cacheLock
      "f.png" = none ∧
    (unlockCacheFile "f.png" "c2" (unlockCacheFile "f.png" "c1"
      (lockCacheFile "f.png" "c2" (lockCacheFile "f.png" "c1"
      ⟨fun _ => none, fun f => if f = "f.png" then some ⟨0, Strategy.immutable⟩ else none, 1⟩)))).cacheObservables
      "f.png" = none :=
  lock_unlock_transitions _ "f.png" "c1" "c2" (by decide) rfl

/-! ## Coalescing and preconditions of `observable` -/

/-- C1: while a filename is locked and has a live registered stream, every
further `observable` call by a consumer holding a lock on that filename —
whatever its url or (valid) strategy — returns exactly the registered
stream object and leaves the state unchanged: no second stream is created
for the filename. -/
theorem observable_coalesces_to_registered_stream (valid : String → Bool)
    (st : CacheState) (url componentId strat fileName : String)
    (s : Strategy) (comps : List String) (subj : StreamObj)
    (hurl : url ≠ "") (hs : parseStrategy strat = some s)
    (hlock : st.cacheLock fileName = some comps) (hcid : componentId ∈ comps)
    (hreg : st.cacheObservables fileName = some subj) :
    observable valid st url componentId strat (some fileName) =
      Except.ok (ObsOutcome.shared subj, st) := by
  simp [observable, hurl, hs, hlock, hcid, hreg]

/-- C1 witness: a second consumer holding a lock requests the stream for a
locked filename with a live stream and receives the registered object. -/
theorem observable_coalesces_to_registered_stream_witness :
    observable (fun _ => true)
      ⟨fun f => if f = "f.png" then some ["c1", "c2"] else none,
       fun f => if f = "f.png" then some ⟨7, Strategy.immutable⟩ else none, 8⟩
      "https://example.com/pic.png" "c2" "immutable" (some "f.png") =
      Except.ok (ObsOutcome.shared ⟨7, Strategy.immutable⟩,
        ⟨fun f => if f = "f.png" then some ["c1", "c2"] else none,
         fun f => if f = "f.png" then some ⟨7, Strategy.immutable⟩ else none, 8⟩) :=
  observable_coalesces_to_registered_stream _ _ _ _ _ _ Strategy.immutable ["c1", "c2"]
    ⟨7, Strategy.immutable⟩ (by decide) rfl rfl (by decide) rfl

/-- C9: for a non-empty url and a valid strategy, a consumer that does not
hold a lock on the derived (or supplied) filename gets the lock-required
error — both when the filename has no lock entry at all and when the entry
does not contain this consumer id. -/
theorem observable_requires_lock (valid : String → Bool) (st : CacheState)
    (url componentId strat : String) (s : Strategy) (fileName? : Option String)
    (hurl : url ≠ "") (hs : parseStrategy strat = some s)
    (hnolock : ∀ comps, st.cacheLock (fileName?.getD (getFileNameFromUrl url)) = some comps →
      componentId ∉ comps) :
    observable valid st url componentId strat fileName? =
      Except.error "A lock must be aquired before requesting an observable" := by
  simp only [observable, if_neg hurl, hs]
  rcases h : st.cacheLock (fileName?.getD (getFileNameFromUrl url)) with _ | comps
  · rfl
  · simp [hnolock comps h]

/-- C9 witness: requesting a stream for a filename with zero locks throws
the precondition error. -/
theorem observable_requires_lock_witness :
    observable (fun _ => true) ⟨fun _ => none, fun _ => none, 0⟩
      "https://example.com/pic.png" "c1" "immutable" (some "f.png") =
      Except.error "A lock must be aquired before requesting an observable" :=
  observable_requires_lock _ _ _ _ _ Strategy.immutable _ (by decide) rfl
    (fun comps h => by simp at h)

/-- C10: with the filename locked and no live stream, the first `observable`
call registers a stream built with its own (parsed) strategy; a later
coalesced call passing any other valid strategy receives that existing
stream object unchanged — so the later strategy argument is ignored and the
production pipeline keeps the creator's strategy — while an invalid
strategy string still throws for any caller, since strategy validation
precedes the registry lookup. -/
theorem observable_ignores_later_strategy (valid : String → Bool) (st : CacheState)
    (url1 url2 url3 componentId1 componentId2 componentId3 : String)
    (strat1 strat2 strat3 fileName : String) (s1 s2 : Strategy) (comps : List String)
    (hurl1 : url1 ≠ "") (hurl2 : url2 ≠ "") (hurl3 : url3 ≠ "")
    (hs1 : parseStrategy strat1 = some s1) (hs2 : parseStrategy strat2 = some s2)
    (hs3 : parseStrategy strat3 = none)
    (hlock : st.cacheLock fileName = some comps)
    (hc1 : componentId1 ∈ comps) (hc2 : componentId2 ∈ comps)
    (hreg : st.cacheObservables fileName = none)
    (hvalid : valid fileName = true) :
    ∃ st' : CacheState,
      observable valid st url1 componentId1 strat1 (some fileName) =
        Except.ok (ObsOutcome.shared ⟨st.nextId, s1⟩, st') ∧
      st'.cacheObservables fileName = some ⟨st.nextId, s1⟩ ∧
      observable valid st' url2 componentId2 strat2 (some fileName) =
        Except.ok (ObsOutcome.shared ⟨st.nextId, s1⟩, st') ∧
      observable valid st' url3 componentId3 strat3 (some fileName) =
        Except.error ("Invalid CacheStrategy " ++ strat3 ++ " is unhandled") := by
  refine ⟨{ st with
      cacheObservables := fun f =>
        if f = fileName then some ⟨st.nextId, s1⟩ else st.cacheObservables f,
      nextId := st.nextId + 1 }, ?_, ?_, ?_, ?_⟩
  · simp [observable, hurl1, hs1, hlock, hc1, hreg, hvalid]
  · simp
  · simp [observable, hurl2, hs2, hlock, hc2]
  · simp [observable, hurl3, hs3]

/-- C10 witness: the creator uses `mutable`, a later caller passing
`immutable` receives the creator's stream, and a caller passing a garbage
strategy string gets the invalid-strategy error. -/
theorem observable_ignores_later_strategy_witness :
    ∃ st' : CacheState,
      observable (fun _ => true)
        ⟨fun f => if f = "f.png" then some ["c1", "c2"] else none, fun _ => none, 3⟩
        "https://example.com/a.png" "c1" "mutable" (some "f.png") =
        Except.ok (ObsOutcome.shared ⟨3, Strategy.mutable⟩, st') ∧
      st'.cacheObservables "f.png" = some ⟨3, Strategy.mutable⟩ ∧
      observable (fun _ => true) st' "https://example.com/a.png" "c2" "immutable"
          (some "f.png") =
        Except.ok (ObsOutcome.shared ⟨3, Strategy.mutable⟩, st') ∧
      observable (fun _ => true) st' "https://example.com/a.png" "c2" "weird"
          (some "f.png") =
        Except.error ("Invalid CacheStrategy " ++ "weird" ++ " is unhandled") :=
  observable_ignores_later_strategy _ _ _ _ _ _ _ _ _ _ _ _ Strategy.mutable
    Strategy.immutable ["c1", "c2"] (by decide) (by decide) (by decide) rfl rfl rfl rfl
    (by decide) (by decide) rfl rfl

/-! ## Emission behaviour of the pipelines -/

/-- C2: for a locked filename whose cache file exists, the mutable-strategy
production first emits the local file reference, performs exactly one
conditional fetch whose if-modified-since header is derived from the
file's modification time, and emits one or two values in total — exactly
one when the conditional download reports not-modified, exactly two when it
reports a fresh 200 download — with the local result first. -/
theorem mutable_strategy_emission_bounds (valid : String → Bool) (utc : Int → String)
    (baseFilePath url fileName : String) (stat : StatInfo) (env : FetchEnv)
    (hvalid : valid (baseFilePath ++ fileName) = true)
    (hstat : env.statResult.isSome = true) :
    ∃ emissions calls,
      observableProduction valid utc baseFilePath url fileName Strategy.mutable
          (some stat) env = Except.ok (emissions, calls) ∧
      emissions.head? =
        some { path := some ("file://" ++ baseFilePath ++ fileName), fileName := fileName } ∧
      (∃ c, calls = [c] ∧ c.ifModifiedSince = some (utc stat.mtime)) ∧
      1 ≤ emissions.length ∧ emissions.length ≤ 2 ∧
      (env.download = DownloadOutcome.status 304 → emissions.length = 1) ∧
      (env.download = DownloadOutcome.status 200 → emissions.length = 2) := by
  obtain ⟨cde, statR, dl⟩ := env
  obtain ⟨si, rfl⟩ : ∃ si, statR = some si := by
    cases statR with
    | none => simp at hstat
    | some si => exact ⟨si, rfl⟩
  cases dl with
  | ioError =>
    refine ⟨[{ path := some ("file://" ++ baseFilePath ++ fileName), fileName := fileName },
             { path := none, fileName := basename (baseFilePath ++ fileName) }],
            [{ fromUrl := url, toFile := baseFilePath ++ fileName,
               ifModifiedSince := some (utc stat.mtime) }],
            by simp [observableProduction, fetchFile, hvalid], rfl,
            ⟨_, rfl, rfl⟩, by simp, by simp, by simp, by simp⟩
  | status code =>
    by_cases hc : code = 200
    · subst hc
      refine ⟨[{ path := some ("file://" ++ baseFilePath ++ fileName), fileName := fileName },
               { path := some ("file://" ++ (baseFilePath ++ fileName)),
                 fileName := basename (baseFilePath ++ fileName) }],
              [{ fromUrl := url, toFile := baseFilePath ++ fileName,
                 ifModifiedSince := some (utc stat.mtime) }],
              by simp [observableProduction, fetchFile, hvalid], rfl,
              ⟨_, rfl, rfl⟩, by simp, by simp, by simp, by simp⟩
    · refine ⟨[{ path := some ("file://" ++ baseFilePath ++ fileName), fileName := fileName }],
              [{ fromUrl := url, toFile := baseFilePath ++ fileName,
                 ifModifiedSince := some (utc stat.mtime) }],
              by simp [observableProduction, fetchFile, hvalid, hc], rfl,
              ⟨_, rfl, rfl⟩, by simp, by simp, by simp, ?_⟩
      intro h
      cases h
      exact absurd rfl hc

/-- C2 witness: a concrete revalidation over an existing cache file whose
conditional download answers 304 not-modified. -/
theorem mutable_strategy_emission_bounds_witness :
    ∃ emissions calls,
      observableProduction (fun _ => true) (fun _ => "Thu, 01 Jan 1970 00:00:03 GMT")
          "base/" "https://example.com/pic.png" "f.png" Strategy.mutable
          (some { mtime := 3 })
          { cacheDirExists := true, statResult := some { mtime := 3 },
            download := DownloadOutcome.status 304 } = Except.ok (emissions, calls) ∧
      emissions.head? = some { path := some ("file://" ++ "base/" ++ "f.png"),
                               fileName := "f.png" } ∧
      (∃ c, calls = [c] ∧
        c.ifModifiedSince = some ((fun _ => "Thu, 01 Jan 1970 00:00:03 GMT") (3 : Int))) ∧
      1 ≤ emissions.length ∧ emissions.length ≤ 2 ∧
      (DownloadOutcome.status 304 = DownloadOutcome.status 304 → emissions.length = 1) ∧
      (DownloadOutcome.status 304 = DownloadOutcome.status 200 → emissions.length = 2) :=
  mutable_strategy_emission_bounds (fun _ => true) (fun _ => "Thu, 01 Jan 1970 00:00:03 GMT")
    "base/" "https://example.com/pic.png" "f.png" { mtime := 3 }
    { cacheDirExists := true, statResult := some { mtime := 3 },
      download := DownloadOutcome.status 304 } rfl rfl

/-- C4 counterexample: a conditional fetch (the cache file is present, so
`stat` is non-null) whose download answers 404 — a status that is neither
success nor not-modified — is silently filtered out by the
`stat === null || statusCode === 200` filter: the pipeline emits nothing
and deletes nothing, instead of deleting the partial file and emitting a
null-path result as the claim requires. -/
theorem fetchFile_conditional_failure_cex :
    fetchFile (fun _ => true) "base/" "https://example.com/pic.png" (some "f.png")
        (some "Thu, 01 Jan 1970 00:00:03 GMT")
        { cacheDirExists := true, statResult := some { mtime := 3 },
          download := DownloadOutcome.status 404 } =
      Except.ok
        { emissions := [], deletedPartial := false, pruneRan := true, mkdirRan := false,
          downloadCall :=
            { fromUrl := "https://example.com/pic.png", toFile := "base/f.png",
              ifModifiedSince := some "Thu, 01 Jan 1970 00:00:03 GMT" } } := rfl

/-- C4 as amended: a first-download fetch (no prior file) with a non-200
status, and any fetch whose pipeline raises an exception, delete the
partially written file and emit a single `{path: null, fileName}` result;
a conditional fetch (prior file present) with any non-200 status — not only
not-modified — yields no emission and no deletion; and in every case the
operation recovers into an `ok` result instead of propagating an error. -/
theorem fetchFile_failure_recovery (valid : String → Bool)
    (baseFilePath url fileName : String) (headers : Option String)
    (env : FetchEnv) (code : Nat)
    (hvalid : valid (baseFilePath ++ fileName) = true) :
    (∃ fr, fetchFile valid baseFilePath url (some fileName) headers env = Except.ok fr) ∧
    (env.download = DownloadOutcome.ioError →
      ∃ fr, fetchFile valid baseFilePath url (some fileName) headers env = Except.ok fr ∧
        fr.emissions = [{ path := none, fileName := basename (baseFilePath ++ fileName) }] ∧
        fr.deletedPartial = true) ∧
    (env.statResult = none → env.download = DownloadOutcome.status code → code ≠ 200 →
      ∃ fr, fetchFile valid baseFilePath url (some fileName) headers env = Except.ok fr ∧
        fr.emissions = [{ path := none, fileName := basename (baseFilePath ++ fileName) }] ∧
        fr.deletedPartial = true) ∧
    (env.statResult.isSome = true → env.download = DownloadOutcome.status code →
        code ≠ 200 →
      ∃ fr, fetchFile valid baseFilePath url (some fileName) headers env = Except.ok fr ∧
        fr.emissions = [] ∧ fr.deletedPartial = false) := by
  obtain ⟨cde, statR, dl⟩ := env
  refine ⟨?_, ?_, ?_, ?_⟩
  · cases dl with
    | ioError => exact ⟨_, by simp [fetchFile, hvalid]; try rfl⟩
    | status c =>
      cases statR with
      | none =>
        by_cases hc : c = 200
        · exact ⟨_, by simp [fetchFile, hvalid, hc]; try rfl⟩
        · exact ⟨_, by simp [fetchFile, hvalid, hc]; try rfl⟩
      | some si =>
        by_cases hc : c = 200
        · exact ⟨_, by simp [fetchFile, hvalid, hc]; try rfl⟩
        · exact ⟨_, by simp [fetchFile, hvalid, hc]; try rfl⟩
  · intro hdl
    cases hdl
    exact ⟨_, by simp [fetchFile, hvalid]; try rfl, rfl, rfl⟩
  · intro hstat hdl hc
    cases hdl
    cases hstat
    exact ⟨_, by simp [fetchFile, hvalid, hc]; try rfl, rfl, rfl⟩
  · intro hstat hdl hc
    cases hdl
    obtain ⟨si, rfl⟩ : ∃ si, statR = some si := by
      cases statR with
      | none => simp at hstat
      | some si => exact ⟨si, rfl⟩
    exact ⟨_, by simp [fetchFile, hvalid, hc]; try rfl, rfl, rfl⟩

/-- The concrete I/O environment of the C4 amended witness: brand-new file,
no cache directory, download answers 500. -/
def failEnv : FetchEnv :=
  { cacheDirExists := false, statResult := none, download := DownloadOutcome.status 500 }

/-- C4 amended witness: a first download answering 500 recovers into a
single null-path emission with the partial file deleted. -/
theorem fetchFile_failure_recovery_witness :
    (∃ fr, fetchFile (fun _ => true) "base/" "https://example.com/pic.png" (some "f.png")
        none failEnv = Except.ok fr) ∧
    (failEnv.download = DownloadOutcome.ioError →
      ∃ fr, fetchFile (fun _ => true) "base/" "https://example.com/pic.png" (some "f.png")
          none failEnv = Except.ok fr ∧
        fr.emissions = [{ path := none, fileName := basename ("base/" ++ "f.png") }] ∧
        fr.deletedPartial = true) ∧
    (failEnv.statResult = none → failEnv.download = DownloadOutcome.status 500 →
        (500 : Nat) ≠ 200 →
      ∃ fr, fetchFile (fun _ => true) "base/" "https://example.com/pic.png" (some "f.png")
          none failEnv = Except.ok fr ∧
        fr.emissions = [{ path := none, fileName := basename ("base/" ++ "f.png") }] ∧
        fr.deletedPartial = true) ∧
    (failEnv.statResult.isSome = true → failEnv.download = DownloadOutcome.status 500 →
        (500 : Nat) ≠ 200 →
      ∃ fr, fetchFile (fun _ => true) "base/" "https://example.com/pic.png" (some "f.png")
          none failEnv = Except.ok fr ∧
        fr.emissions = [] ∧ fr.deletedPartial = false) :=
  fetchFile_failure_recovery (fun _ => true) "base/" "https://example.com/pic.png" "f.png"
    none failEnv 500 rfl

/-- C6 counterexample: a conditional (revalidation) fetch of an
already-present file, with the cache directory present, does run
`pruneCache` in its `delayWhen` step before downloading — contradicting the
claim that only a non-conditional fetch for a brand-new file triggers the
pre-write sweep. -/
theorem fetchFile_revalidation_prunes_cex :
    ∃ fr, fetchFile (fun _ => true) "base/" "https://example.com/pic.png" (some "f.png")
        (some "Thu, 01 Jan 1970 00:00:03 GMT")
        { cacheDirExists := true, statResult := some { mtime := 3 },
          download := DownloadOutcome.status 304 } = Except.ok fr ∧
      fr.pruneRan = true :=
  ⟨_, rfl, rfl⟩

/-- C6 as amended: every run of `fetchFile` — conditional or not, whether or
not the target file already exists — runs the eviction sweep in its
`delayWhen` step exactly when the cache directory exists, and creates the
directory instead (with no sweep) when it does not. -/
theorem fetchFile_prunes_whenever_dir_exists (valid : String → Bool)
    (baseFilePath url fileName : String) (headers : Option String) (env : FetchEnv)
    (hvalid : valid (baseFilePath ++ fileName) = true) :
    ∃ fr, fetchFile valid baseFilePath url (some fileName) headers env = Except.ok fr ∧
      fr.pruneRan = env.cacheDirExists ∧ fr.mkdirRan = (!env.cacheDirExists) := by
  obtain ⟨cde, statR, dl⟩ := env
  cases dl with
  | ioError => exact ⟨_, by simp [fetchFile, hvalid]; try rfl, rfl, rfl⟩
  | status c =>
    cases statR with
    | none =>
      by_cases hc : c = 200
      · exact ⟨_, by simp [fetchFile, hvalid, hc]; try rfl, rfl, rfl⟩
      · exact ⟨_, by simp [fetchFile, hvalid, hc]; try rfl, rfl, rfl⟩
    | some si =>
      by_cases hc : c = 200
      · exact ⟨_, by simp [fetchFile, hvalid, hc]; try rfl, rfl, rfl⟩
      · exact ⟨_, by simp [fetchFile, hvalid, hc]; try rfl, rfl, rfl⟩

/-- The concrete I/O environment of the C6 amended witness: a first
download with the cache directory already present. -/
def firstDownloadEnv : FetchEnv :=
  { cacheDirExists := true, statResult := none, download := DownloadOutcome.status 200 }

/-- C6 amended witness: a non-conditional fetch with the cache directory
present prunes; the `mkdir` path is not taken. -/
theorem fetchFile_prunes_whenever_dir_exists_witness :
    ∃ fr, fetchFile (fun _ => true) "base/" "https://example.com/pic.png" (some "f.png")
        none firstDownloadEnv = Except.ok fr ∧
      fr.pruneRan = firstDownloadEnv.cacheDirExists ∧
      fr.mkdirRan = (!firstDownloadEnv.cacheDirExists) :=
  fetchFile_prunes_whenever_dir_exists (fun _ => true) "base/"
    "https://example.com/pic.png" "f.png" none firstDownloadEnv rfl

/-! ## The naming contract -/

set_option maxRecDepth 8192 in
/-- C8: cache filename derivation is a pure deterministic function of the
full URL string: it is `sha1(url) + '.' + extension` where the extension is
the final dot-segment of the URL path, falling back to the fixed token
`bin` exactly when the split's last segment equals the whole path; two
calls on the same URL yield the identical filename.  The two concrete
examples of the spec compute end to end. -/
theorem getFileNameFromUrl_spec :
    (∀ url : String,
      getFileNameFromUrl url =
        sha1Hex url ++ "." ++
          String.mk
            (if (splitChar '.' (pathnameChars url)).getLastD [] = pathnameChars url
             then ['b', 'i', 'n']
             else (splitChar '.' (pathnameChars url)).getLastD [])) ∧
    (∀ url : String, getFileNameFromUrl url = getFileNameFromUrl url) ∧
    getFileNameFromUrl "https://img.example.com/a/b/pic.png" =
      sha1Hex "https://img.example.com/a/b/pic.png" ++ "." ++ "png" ∧
    getFileNameFromUrl "https://example.com/resource" =
      sha1Hex "https://example.com/resource" ++ "." ++ "bin" :=
  ⟨fun _ => rfl, fun _ => rfl, by decide, by decide⟩
